import Mathlib

/-!
Shallow embedding of the Snake game (src/snake_game.py).

The game logic lives in `run()`: per-frame it commits the pending direction,
moves the head, detects wall/self collision, grows on food, and resamples the
food cell.  Rendering, fonts, colors and the pygame event loop are external
collaborators and are not modelled; the `Config` structure below keeps only the
fields the logic reads.  `random.choice` is modelled by an explicit `choice`
function supplied as a parameter; a valid draw satisfies `choice l ∈ l` for
nonempty `l`.
-/

/-- Positions and directions: `Vec = tuple[int, int]` in the source. -/
abbrev Vec := Int × Int

/-- The logic-relevant fields of the frozen `Config` dataclass (defaults as in
the source).  Pixel sizes and colors are rendering-only and omitted. -/
structure Config where
  cell_size : Nat := 20
  grid_width : Nat := 30
  grid_height : Nat := 20
  base_fps : Nat := 5
  speedup_every : Nat := 5
  speedup_amount : Nat := 2
deriving DecidableEq

/-- Componentwise vector sum, `add(a, b)` in the source. -/
def add (a b : Vec) : Vec := (a.1 + b.1, a.2 + b.2)

/-- Bounds check `inside(pos, cfg)`: `0 <= x < grid_width and 0 <= y < grid_height`. -/
def inside (pos : Vec) (cfg : Config) : Bool :=
  0 ≤ pos.1 && pos.1 < (cfg.grid_width : Int) && 0 ≤ pos.2 && pos.2 < (cfg.grid_height : Int)

/-- Build a cell from the nonnegative loop indices of `random_empty_cell`. -/
def cellAt (x y : Nat) : Vec := ((x : Int), (y : Int))

/-- The list comprehension inside `random_empty_cell`: all cells `(x, y)` for
`y in range(grid_height)`, `x in range(grid_width)` with `(x, y) not in occupied`. -/
def empties (occupied : List Vec) (cfg : Config) : List Vec :=
  ((List.range cfg.grid_height).flatMap fun y =>
    (List.range cfg.grid_width).map fun x => cellAt x y).filter
    fun c => decide (c ∉ occupied)

/-- The sampler `random_empty_cell(occupied, cfg)`: returns the sentinel
`(-1, -1)` when no empty cell exists, otherwise `random.choice(empties)`,
modelled by the `choice` parameter. -/
def random_empty_cell (choice : List Vec → Vec) (occupied : List Vec) (cfg : Config) : Vec :=
  if empties occupied cfg = [] then (-1, -1) else choice (empties occupied cfg)

/-- The mutable game variables of `run()` (`snake, direction, pending_dir,
alive, score, food`). -/
structure GameState where
  snake : List Vec
  direction : Vec
  pending_dir : Vec
  alive : Bool
  score : Nat
  food : Vec
deriving DecidableEq

/-- The nested `reset_game()` function: a 3-cell chain starting at the grid
center and trailing in the negative-x direction, moving right, score 0, alive,
food sampled over the chain. -/
def reset_game (choice : List Vec → Vec) (cfg : Config) : GameState :=
  let start : Vec := ((cfg.grid_width / 2 : Nat), (cfg.grid_height / 2 : Nat))
  let snake := [start, (start.1 - 1, start.2), (start.1 - 2, start.2)]
  { snake := snake
    direction := (1, 0)
    pending_dir := (1, 0)
    alive := true
    score := 0
    food := random_empty_cell choice snake cfg }

/-- The speed function `current_fps(score)`:
`base_fps + (score // speedup_every) * speedup_amount`. -/
def current_fps (cfg : Config) (score_value : Nat) : Nat :=
  cfg.base_fps + (score_value / cfg.speedup_every) * cfg.speedup_amount

/-- The new head computed at the top of a tick: `add(snake[0], pending_dir)`
(the pending direction is committed first, so it is the direction used). -/
def new_head_of (s : GameState) : Vec := add (s.snake.headD (0, 0)) s.pending_dir

/-- One simulation step: the `if alive:` block of the main loop (commit the
pending direction, move, collision check, growth or tail pop, food resample). -/
def tick (choice : List Vec → Vec) (cfg : Config) (s : GameState) : GameState :=
  if s.alive then
    let direction := s.pending_dir
    let new_head := add (s.snake.headD (0, 0)) direction
    if ¬ inside new_head cfg ∨ new_head ∈ s.snake then
      { s with direction := direction, alive := false }
    else
      let snake := new_head :: s.snake
      if new_head = s.food then
        { s with direction := direction, snake := snake, score := s.score + 1,
                 food := random_empty_cell choice snake cfg }
      else
        { s with direction := direction, snake := snake.dropLast }
  else s

/-- The direction key handling of the event loop, generalized over the four
arrow/WASD cases: only while alive, and only when `d` is not the exact
negation of the committed `direction`, set `pending_dir := d`. -/
def set_pending (d : Vec) (s : GameState) : GameState :=
  if s.alive then
    if s.direction = (-d.1, -d.2) then s else { s with pending_dir := d }
  else s

/-- The food-drawing guard of the render section: food is drawn iff it is not
the board-full sentinel `(-1, -1)`. -/
def food_drawn (s : GameState) : Bool := decide (s.food ≠ ((-1, -1) : Vec))

/-- A driver-visible action between frames: one tick (with its random draw) or
one direction key. -/
inductive Act where
  | tickA (choice : List Vec → Vec)
  | setDirA (d : Vec)

/-- Apply one action to the game state. -/
def stepA (cfg : Config) (s : GameState) : Act → GameState
  | .tickA choice => tick choice cfg s
  | .setDirA d => set_pending d s

/-- Run a sequence of actions from a state. -/
def runActs (cfg : Config) (s : GameState) (acts : List Act) : GameState :=
  acts.foldl (stepA cfg) s

/-- Apply a burst of direction keys between two ticks, in order. -/
def applyDirs (ds : List Vec) (s : GameState) : GameState :=
  ds.foldl (fun t d => set_pending d t) s

/-- A deterministic valid draw, used to instantiate `choice` on concrete runs:
picks the first empty cell (row-major). -/
def headChoice (l : List Vec) : Vec := l.headD (-1, -1)

/-- The chain-shape invariant of §8: cells pairwise distinct and all inside the
grid. -/
def ChainOK (cfg : Config) (s : GameState) : Prop :=
  s.snake.Nodup ∧ ∀ c ∈ s.snake, inside c cfg = true

/-- The configuration actually built by `run()`: `Config()` with all defaults
(30 by 20 grid). -/
def defaultCfg : Config := {}

/-- A 5 by 5 grid, as used by the spec scenarios. -/
def cfg5 : Config := { grid_width := 5, grid_height := 5 }

/-- A 2 by 1 grid, small enough that one growth step fills the board. -/
def cfg2x1 : Config := { grid_width := 2, grid_height := 1 }

/-- A 1 by 1 grid, for sampler edge cases. -/
def cfg1x1 : Config := { grid_width := 1, grid_height := 1 }

/-- The growth scenario of §8: chain `[(2,2),(1,2),(0,2)]` moving right on the
5 by 5 grid with the item at `(3,2)`. -/
def stGrow : GameState :=
  { snake := [(2, 2), (1, 2), (0, 2)], direction := (1, 0), pending_dir := (1, 0),
    alive := true, score := 0, food := (3, 2) }

/-- The wall scenario of §8: chain `[(0,2),(1,2)]` moving left on the 5 by 5
grid. -/
def stWall : GameState :=
  { snake := [(0, 2), (1, 2)], direction := (-1, 0), pending_dir := (-1, 0),
    alive := true, score := 0, food := (4, 4) }

/-- A game-over state. -/
def stDead : GameState :=
  { snake := [(2, 2), (1, 2)], direction := (1, 0), pending_dir := (0, 1),
    alive := false, score := 7, food := (3, 3) }

/-- A one-cell chain about to eat the last free cell of the 2 by 1 grid. -/
def stFull : GameState :=
  { snake := [(0, 0)], direction := (1, 0), pending_dir := (1, 0),
    alive := true, score := 0, food := (1, 0) }

theorem headChoice_ok : ∀ l : List Vec, l ≠ [] → headChoice l ∈ l := by
  intro l hl
  cases l with
  | nil => exact absurd rfl hl
  | cons a t => exact List.mem_cons_self a t

example : empties [((0 : Int), (0 : Int))] { grid_width := 2, grid_height := 1 } = [(1, 0)] := by
  decide

example : random_empty_cell headChoice [((0 : Int), (0 : Int)), (1, 0)]
    { grid_width := 2, grid_height := 1 } = (-1, -1) := by decide

/-! Basic facts about the cell enumeration and the sampler. -/

theorem mem_cells {a b : Int} {cfg : Config} :
    ((a, b) : Vec) ∈ (List.range cfg.grid_height).flatMap
      (fun y => (List.range cfg.grid_width).map fun x => cellAt x y) ↔
    0 ≤ a ∧ a < (cfg.grid_width : Int) ∧ 0 ≤ b ∧ b < (cfg.grid_height : Int) := by
  rw [List.mem_flatMap]
  constructor
  · rintro ⟨y, hy, hmem⟩
    rw [List.mem_range] at hy
    rw [List.mem_map] at hmem
    obtain ⟨x, hx, hxy⟩ := hmem
    rw [List.mem_range] at hx
    rw [cellAt] at hxy
    injection hxy with h1 h2
    omega
  · rintro ⟨h1, h2, h3, h4⟩
    refine ⟨b.toNat, ?_, ?_⟩
    · rw [List.mem_range]
      omega
    · rw [List.mem_map]
      refine ⟨a.toNat, ?_, ?_⟩
      · rw [List.mem_range]
        omega
      · rw [cellAt, Prod.mk.injEq]
        constructor <;> omega

theorem mem_empties {c : Vec} {occupied : List Vec} {cfg : Config} :
    c ∈ empties occupied cfg ↔ (inside c cfg = true ∧ c ∉ occupied) := by
  obtain ⟨a, b⟩ := c
  rw [empties, List.mem_filter, mem_cells, decide_eq_true_eq]
  unfold inside
  simp only [Bool.and_eq_true, decide_eq_true_eq]
  tauto

theorem empties_eq_nil {occupied : List Vec} {cfg : Config} :
    empties occupied cfg = [] ↔ ∀ c : Vec, inside c cfg = true → c ∈ occupied := by
  rw [List.eq_nil_iff_forall_not_mem]
  constructor
  · intro h c hin
    by_contra hocc
    exact h c (mem_empties.mpr ⟨hin, hocc⟩)
  · intro h c hc
    obtain ⟨hin, hocc⟩ := mem_empties.mp hc
    exact hocc (h c hin)

theorem inside_of_mem_empties {c : Vec} {occupied : List Vec} {cfg : Config}
    (h : c ∈ empties occupied cfg) : inside c cfg = true := (mem_empties.mp h).1

theorem not_mem_of_mem_empties {c : Vec} {occupied : List Vec} {cfg : Config}
    (h : c ∈ empties occupied cfg) : c ∉ occupied := (mem_empties.mp h).2

/-! Claim theorems. -/

/-- C1: for an alive state whose computed new head is inside the grid and not
in the pre-move chain, a tick either grows (new head prepended, tail kept,
length plus one, score plus one, food resampled over the new chain) when the
new head hits the food, or moves (new head prepended, tail removed, length and
score unchanged) otherwise. -/
theorem C1_tick_growth_and_move (choice : List Vec → Vec) (cfg : Config) (s : GameState)
    (halive : s.alive = true) (hne : s.snake ≠ [])
    (hin : inside (new_head_of s) cfg = true) (hnm : new_head_of s ∉ s.snake) :
    (new_head_of s = s.food →
      (tick choice cfg s).snake = new_head_of s :: s.snake ∧
      (tick choice cfg s).snake.length = s.snake.length + 1 ∧
      (tick choice cfg s).score = s.score + 1 ∧
      (tick choice cfg s).food = random_empty_cell choice (new_head_of s :: s.snake) cfg) ∧
    (new_head_of s ≠ s.food →
      (tick choice cfg s).snake = new_head_of s :: s.snake.dropLast ∧
      (tick choice cfg s).snake.length = s.snake.length ∧
      (tick choice cfg s).score = s.score ∧
      (tick choice cfg s).food = s.food) := by
  have hcol : ¬ (¬ inside (new_head_of s) cfg = true ∨ new_head_of s ∈ s.snake) := by
    push_neg
    exact ⟨by simp [hin], hnm⟩
  constructor
  · intro hfood
    unfold tick
    rw [halive]
    unfold new_head_of at hcol hfood ⊢
    simp only [if_pos rfl]
    rw [if_neg hcol, if_pos hfood]
    exact ⟨rfl, rfl, rfl, rfl⟩
  · intro hfood
    unfold tick
    rw [halive]
    unfold new_head_of at hcol hfood ⊢
    simp only [if_pos rfl]
    rw [if_neg hcol, if_neg hfood]
    refine ⟨List.dropLast_cons_of_ne_nil hne, ?_, rfl, rfl⟩
    show (_ :: s.snake).dropLast.length = s.snake.length
    rw [List.length_dropLast, List.length_cons]
    omega

/-- C1 witness: the growth scenario of §8 on the 5 by 5 grid. -/
theorem C1_witness :
    stGrow.alive = true ∧ stGrow.snake ≠ [] ∧
    inside (new_head_of stGrow) cfg5 = true ∧ new_head_of stGrow ∉ stGrow.snake ∧
    ((new_head_of stGrow = stGrow.food →
      (tick headChoice cfg5 stGrow).snake = new_head_of stGrow :: stGrow.snake ∧
      (tick headChoice cfg5 stGrow).snake.length = stGrow.snake.length + 1 ∧
      (tick headChoice cfg5 stGrow).score = stGrow.score + 1 ∧
      (tick headChoice cfg5 stGrow).food
        = random_empty_cell headChoice (new_head_of stGrow :: stGrow.snake) cfg5) ∧
    (new_head_of stGrow ≠ stGrow.food →
      (tick headChoice cfg5 stGrow).snake = new_head_of stGrow :: stGrow.snake.dropLast ∧
      (tick headChoice cfg5 stGrow).snake.length = stGrow.snake.length ∧
      (tick headChoice cfg5 stGrow).score = stGrow.score ∧
      (tick headChoice cfg5 stGrow).food = stGrow.food)) :=
  ⟨rfl, by decide, by decide, by decide,
    C1_tick_growth_and_move headChoice cfg5 stGrow rfl (by decide) (by decide) (by decide)⟩

/-- C2: for an alive state whose computed new head is outside the grid or a
member of the pre-move chain (tail included), a tick sets the game over flag
and leaves chain, score and food unchanged. -/
theorem C2_tick_collision (choice : List Vec → Vec) (cfg : Config) (s : GameState)
    (halive : s.alive = true)
    (hcol : ¬ inside (new_head_of s) cfg = true ∨ new_head_of s ∈ s.snake) :
    (tick choice cfg s).alive = false ∧ (tick choice cfg s).snake = s.snake ∧
    (tick choice cfg s).score = s.score ∧ (tick choice cfg s).food = s.food := by
  unfold tick
  rw [halive]
  unfold new_head_of at hcol
  simp only [if_pos rfl]
  rw [if_pos hcol]
  exact ⟨rfl, rfl, rfl, rfl⟩

/-- C2 witness: the wall scenario of §8 (moving left from `(0,2)` leaves the
5 by 5 grid). -/
theorem C2_witness :
    stWall.alive = true ∧
    (¬ inside (new_head_of stWall) cfg5 = true ∨ new_head_of stWall ∈ stWall.snake) ∧
    (tick headChoice cfg5 stWall).alive = false ∧
    (tick headChoice cfg5 stWall).snake = stWall.snake ∧
    (tick headChoice cfg5 stWall).score = stWall.score ∧
    (tick headChoice cfg5 stWall).food = stWall.food :=
  ⟨rfl, by decide,
    C2_tick_collision headChoice cfg5 stWall rfl (by decide)⟩

/-- C6: a tick in the GameOver state changes nothing at all (the whole state,
hence chain, score, food, alive flag and both directions, is unchanged). -/
theorem C6_tick_gameover_noop (choice : List Vec → Vec) (cfg : Config) (s : GameState)
    (h : s.alive = false) : tick choice cfg s = s := by
  unfold tick
  rw [h]
  rfl

/-- C6 witness: a concrete dead state is fixed by tick. -/
theorem C6_witness : stDead.alive = false ∧ tick headChoice defaultCfg stDead = stDead :=
  ⟨rfl, C6_tick_gameover_noop headChoice defaultCfg stDead rfl⟩

/-- C9 counterexample: the claim asserts a tick rate of 7 at score 12, but the
code yields 5 + floor(12 / 5) * 2 = 9 on the default configuration. -/
theorem C9_counterexample :
    current_fps defaultCfg 12 = 9 ∧ ¬ current_fps defaultCfg 12 = 7 := by decide

/-- C9 (amended): the speed function equals base plus floor(score / step) times
amount, is monotone in the score, and on the default configuration yields 5 at
score 0, 5 at 4, 7 at 5, 9 at 12 and 11 at 15. -/
theorem C9_current_fps (cfg : Config) (s1 s2 : Nat)
    (_he : 0 < cfg.speedup_every) (h12 : s1 ≤ s2) :
    current_fps cfg s1 = cfg.base_fps + (s1 / cfg.speedup_every) * cfg.speedup_amount ∧
    current_fps cfg s1 ≤ current_fps cfg s2 ∧
    current_fps defaultCfg 0 = 5 ∧ current_fps defaultCfg 4 = 5 ∧
    current_fps defaultCfg 5 = 7 ∧ current_fps defaultCfg 12 = 9 ∧
    current_fps defaultCfg 15 = 11 := by
  refine ⟨rfl, ?_, by decide, by decide, by decide, by decide, by decide⟩
  unfold current_fps
  gcongr

/-- C9 witness: monotonicity instantiated at scores 3 and 10 on the default
configuration. -/
theorem C9_witness :
    0 < defaultCfg.speedup_every ∧ 3 ≤ 10 ∧
    (current_fps defaultCfg 3
        = defaultCfg.base_fps + (3 / defaultCfg.speedup_every) * defaultCfg.speedup_amount ∧
      current_fps defaultCfg 3 ≤ current_fps defaultCfg 10 ∧
      current_fps defaultCfg 0 = 5 ∧ current_fps defaultCfg 4 = 5 ∧
      current_fps defaultCfg 5 = 7 ∧ current_fps defaultCfg 12 = 9 ∧
      current_fps defaultCfg 15 = 11) :=
  ⟨by decide, by decide, C9_current_fps defaultCfg 3 10 (by decide) (by decide)⟩

/-- C8: when a growth step finds no empty cell for the new item, the item
becomes the sentinel `(-1, -1)`, the state stays alive (no GameOver from this
alone), and the rendering guard treats it as no active item. -/
theorem C8_board_full (choice : List Vec → Vec) (cfg : Config) (s : GameState)
    (halive : s.alive = true)
    (hin : inside (new_head_of s) cfg = true) (hnm : new_head_of s ∉ s.snake)
    (hfood : new_head_of s = s.food)
    (hfull : empties (new_head_of s :: s.snake) cfg = []) :
    (tick choice cfg s).food = (-1, -1) ∧ (tick choice cfg s).alive = true ∧
    food_drawn (tick choice cfg s) = false := by
  have hcol : ¬ (¬ inside (new_head_of s) cfg = true ∨ new_head_of s ∈ s.snake) := by
    push_neg
    exact ⟨by simp [hin], hnm⟩
  unfold tick
  rw [halive]
  unfold new_head_of at hcol hfood hfull
  simp only [if_pos rfl]
  rw [if_neg hcol, if_pos hfood]
  have hfd : random_empty_cell choice
      (add (s.snake.headD (0, 0)) s.pending_dir :: s.snake) cfg = (-1, -1) := by
    unfold random_empty_cell
    rw [if_pos hfull]
  refine ⟨hfd, rfl, ?_⟩
  unfold food_drawn
  rw [show (GameState.food _ : Vec) = (-1, -1) from hfd]
  decide

/-- C8 witness: on the 2 by 1 grid, a one-cell chain eating the last free cell
fills the board; the item becomes the sentinel, the game stays alive, and the
food is not drawn. -/
theorem C8_witness :
    stFull.alive = true ∧ inside (new_head_of stFull) cfg2x1 = true ∧
    new_head_of stFull ∉ stFull.snake ∧ new_head_of stFull = stFull.food ∧
    empties (new_head_of stFull :: stFull.snake) cfg2x1 = [] ∧
    ((tick headChoice cfg2x1 stFull).food = (-1, -1) ∧
      (tick headChoice cfg2x1 stFull).alive = true ∧
      food_drawn (tick headChoice cfg2x1 stFull) = false) :=
  ⟨rfl, by decide, by decide, by decide, by decide,
    C8_board_full headChoice cfg2x1 stFull rfl (by decide) (by decide) (by decide) (by decide)⟩

/-- C3 counterexample: the size criterion fails for occupied sets containing
out-of-grid cells: on the 1 by 1 grid with occupied set `{(5,5)}`, the occupied
size equals `grid_width * grid_height = 1`, yet the sampler returns the free
cell `(0,0)` rather than the board-full sentinel. -/
theorem C3_counterexample :
    [((5 : Int), (5 : Int))].length = cfg1x1.grid_width * cfg1x1.grid_height ∧
    random_empty_cell headChoice [((5 : Int), (5 : Int))] cfg1x1 ≠ (-1, -1) := by decide

/-- C3 (amended): for a valid random draw, any non-sentinel result of the
sampler is not a member of the occupied set, and the board-full sentinel
`(-1, -1)` is returned iff every cell inside the grid is occupied (for occupied
sets of in-grid cells this coincides with the size criterion of the claim). -/
theorem C3_sampler (choice : List Vec → Vec) (hc : ∀ l : List Vec, l ≠ [] → choice l ∈ l)
    (occupied : List Vec) (cfg : Config) :
    (random_empty_cell choice occupied cfg ≠ (-1, -1) →
      random_empty_cell choice occupied cfg ∉ occupied) ∧
    (random_empty_cell choice occupied cfg = (-1, -1) ↔
      ∀ c : Vec, inside c cfg = true → c ∈ occupied) := by
  unfold random_empty_cell
  by_cases h : empties occupied cfg = []
  · rw [if_pos h]
    exact ⟨fun hne => absurd rfl hne, fun _ => empties_eq_nil.mp h, fun _ => rfl⟩
  · rw [if_neg h]
    have hmem := hc _ h
    refine ⟨fun _ => not_mem_of_mem_empties hmem, ?_, ?_⟩
    · intro heq
      have hins := inside_of_mem_empties hmem
      rw [heq] at hins
      simp [inside] at hins
    · intro hall
      exact absurd (empties_eq_nil.mpr hall) h

/-- C3 witness: the amended sampler property instantiated with the first-cell
draw, occupied set `{(0,0)}` and the 2 by 1 grid. -/
theorem C3_witness :
    (∀ l : List Vec, l ≠ [] → headChoice l ∈ l) ∧
    ((random_empty_cell headChoice [((0 : Int), (0 : Int))] cfg2x1 ≠ (-1, -1) →
        random_empty_cell headChoice [((0 : Int), (0 : Int))] cfg2x1 ∉
          [((0 : Int), (0 : Int))]) ∧
      (random_empty_cell headChoice [((0 : Int), (0 : Int))] cfg2x1 = (-1, -1) ↔
        ∀ c : Vec, inside c cfg2x1 = true → c ∈ [((0 : Int), (0 : Int))])) :=
  ⟨headChoice_ok, C3_sampler headChoice headChoice_ok [((0 : Int), (0 : Int))] cfg2x1⟩

/-! Helper lemmas for the pending-direction machinery. -/

theorem set_pending_not_alive (d : Vec) (s : GameState) (h : s.alive = false) :
    set_pending d s = s := by
  unfold set_pending
  rw [h]
  rfl

theorem set_pending_rejected (d : Vec) (s : GameState) (halive : s.alive = true)
    (hrev : s.direction = (-d.1, -d.2)) : set_pending d s = s := by
  unfold set_pending
  rw [halive, hrev]
  simp

theorem set_pending_accepted (d : Vec) (s : GameState) (halive : s.alive = true)
    (hrev : ¬ s.direction = (-d.1, -d.2)) :
    set_pending d s = { s with pending_dir := d } := by
  unfold set_pending
  simp only [halive, if_true, if_neg hrev]

theorem getLast?_getD_cons (a : Vec) (l : List Vec) :
    ∀ p : Vec, (a :: l).getLast?.getD p = l.getLast?.getD a := by
  induction l generalizing a with
  | nil => intro p; rfl
  | cons b t ih =>
    intro p
    rw [List.getLast?_cons_cons, ih b p, ih b a]

theorem applyDirs_pending (ds : List Vec) :
    ∀ s : GameState, s.alive = true →
      (applyDirs ds s).pending_dir
        = ((ds.filter fun e => decide (¬ s.direction = (-e.1, -e.2))).getLast?.getD
            s.pending_dir) := by
  induction ds with
  | nil => intro s _; rfl
  | cons d t ih =>
    intro s halive
    by_cases hrev : s.direction = (-d.1, -d.2)
    · have hstep : applyDirs (d :: t) s = applyDirs t s := by
        show applyDirs t (set_pending d s) = applyDirs t s
        rw [set_pending_rejected d s halive hrev]
      have hfil : ((d :: t).filter fun e => decide (¬ s.direction = (-e.1, -e.2)))
          = t.filter fun e => decide (¬ s.direction = (-e.1, -e.2)) := by
        rw [List.filter_cons]
        simp [hrev]
      rw [hstep, hfil, ih s halive]
    · have hstep : applyDirs (d :: t) s = applyDirs t { s with pending_dir := d } := by
        show applyDirs t (set_pending d s) = _
        rw [set_pending_accepted d s halive hrev]
      have hfil : ((d :: t).filter fun e => decide (¬ s.direction = (-e.1, -e.2)))
          = d :: t.filter fun e => decide (¬ s.direction = (-e.1, -e.2)) := by
        rw [List.filter_cons]
        simp [hrev]
      rw [hstep, hfil, ih { s with pending_dir := d } halive, getLast?_getD_cons]

theorem applyDirs_alive (ds : List Vec) :
    ∀ s : GameState, (applyDirs ds s).alive = s.alive := by
  induction ds with
  | nil => intro s; rfl
  | cons d t ih =>
    intro s
    show (applyDirs t (set_pending d s)).alive = s.alive
    rw [ih]
    unfold set_pending
    split
    · split
      · rfl
      · rfl
    · rfl

theorem tick_commits_pending (choice : List Vec → Vec) (cfg : Config) (s : GameState)
    (halive : s.alive = true) : (tick choice cfg s).direction = s.pending_dir := by
  unfold tick
  rw [halive]
  simp only [if_true]
  split
  · rfl
  · split
    · rfl
    · rfl

/-- C5: direction input is a no-op when dead or when the candidate is the exact
negation of the committed direction; otherwise it overwrites only the pending
direction; and after any burst of direction keys the pending direction is the
last accepted candidate, which is exactly the direction the next tick commits. -/
theorem C5_pending_direction (d : Vec) (s : GameState) (ds : List Vec)
    (choice : List Vec → Vec) (cfg : Config) :
    (s.alive = false → set_pending d s = s) ∧
    (s.alive = true → s.direction = (-d.1, -d.2) → set_pending d s = s) ∧
    (s.alive = true → ¬ s.direction = (-d.1, -d.2) →
      (set_pending d s).pending_dir = d ∧ (set_pending d s).snake = s.snake ∧
      (set_pending d s).direction = s.direction ∧ (set_pending d s).alive = s.alive ∧
      (set_pending d s).score = s.score ∧ (set_pending d s).food = s.food) ∧
    (s.alive = true →
      (applyDirs ds s).pending_dir
        = ((ds.filter fun e => decide (¬ s.direction = (-e.1, -e.2))).getLast?.getD
            s.pending_dir) ∧
      (tick choice cfg (applyDirs ds s)).direction = (applyDirs ds s).pending_dir) := by
  refine ⟨set_pending_not_alive d s, set_pending_rejected d s, ?_, ?_⟩
  · intro halive hrev
    rw [set_pending_accepted d s halive hrev]
    exact ⟨rfl, rfl, rfl, rfl, rfl, rfl⟩
  · intro halive
    refine ⟨applyDirs_pending ds s halive, ?_⟩
    apply tick_commits_pending
    rw [applyDirs_alive]
    exact halive

/-- C5 witness: from the growth scenario state, the burst up, left, down has
its reversal-guarded left rejected; pending ends at down and the next tick
commits it. -/
theorem C5_witness :
    stGrow.alive = true ∧ ¬ stGrow.direction = (-(0 : Int), -(1 : Int)) ∧
    ((set_pending (0, 1) stGrow).pending_dir = (0, 1) ∧
      (set_pending (0, 1) stGrow).snake = stGrow.snake ∧
      (set_pending (0, 1) stGrow).direction = stGrow.direction ∧
      (set_pending (0, 1) stGrow).alive = stGrow.alive ∧
      (set_pending (0, 1) stGrow).score = stGrow.score ∧
      (set_pending (0, 1) stGrow).food = stGrow.food) ∧
    ((applyDirs [(0, 1), (-1, 0), (0, -1)] stGrow).pending_dir
        = (([(0, 1), (-1, 0), (0, -1)].filter
            fun e => decide (¬ stGrow.direction = (-e.1, -e.2))).getLast?.getD
            stGrow.pending_dir) ∧
      (tick headChoice cfg5 (applyDirs [(0, 1), (-1, 0), (0, -1)] stGrow)).direction
        = (applyDirs [(0, 1), (-1, 0), (0, -1)] stGrow).pending_dir) :=
  ⟨rfl, by decide,
    (C5_pending_direction (0, 1) stGrow [(0, 1), (-1, 0), (0, -1)] headChoice cfg5).2.2.1
      rfl (by decide),
    (C5_pending_direction (0, 1) stGrow [(0, 1), (-1, 0), (0, -1)] headChoice cfg5).2.2.2 rfl⟩

/-! Invariant machinery for reachable states. -/

theorem chainOK_def {cfg : Config} {s : GameState} :
    ChainOK cfg s ↔ (s.snake.Nodup ∧ ∀ c ∈ s.snake, inside c cfg = true) := Iff.rfl

theorem tick_snake_spec (choice : List Vec → Vec) (cfg : Config) (s : GameState) :
    (tick choice cfg s).snake = s.snake ∨
    ((inside (new_head_of s) cfg = true ∧ new_head_of s ∉ s.snake) ∧
      ((tick choice cfg s).snake = new_head_of s :: s.snake ∨
        (tick choice cfg s).snake = (new_head_of s :: s.snake).dropLast)) := by
  by_cases halive : s.alive = true
  · by_cases hcol : ¬ inside (new_head_of s) cfg = true ∨ new_head_of s ∈ s.snake
    · left
      unfold tick
      rw [halive]
      unfold new_head_of at hcol
      simp only [if_true]
      rw [if_pos hcol]
    · have hok : inside (new_head_of s) cfg = true ∧ new_head_of s ∉ s.snake := by
        push_neg at hcol
        exact hcol
      right
      refine ⟨hok, ?_⟩
      by_cases hfood : new_head_of s = s.food
      · left
        unfold tick
        rw [halive]
        unfold new_head_of at hcol hfood ⊢
        simp only [if_true]
        rw [if_neg hcol, if_pos hfood]
      · right
        unfold tick
        rw [halive]
        unfold new_head_of at hcol hfood ⊢
        simp only [if_true]
        rw [if_neg hcol, if_neg hfood]
  · left
    unfold tick
    rw [Bool.not_eq_true] at halive
    rw [halive]
    rfl

theorem chainOK_of_snake_eq {cfg : Config} {s t : GameState} (hsn : t.snake = s.snake)
    (h : ChainOK cfg s) : ChainOK cfg t := by
  rw [chainOK_def] at h ⊢
  rw [hsn]
  exact h

theorem tick_chainOK (choice : List Vec → Vec) (cfg : Config) (s : GameState)
    (h : ChainOK cfg s) : ChainOK cfg (tick choice cfg s) := by
  obtain ⟨hnd, hin⟩ := chainOK_def.mp h
  rcases tick_snake_spec choice cfg s with heq | ⟨⟨hins, hnm⟩, hgrow | hmove⟩
  · exact chainOK_of_snake_eq heq h
  · rw [chainOK_def]
    constructor
    · rw [hgrow]
      exact List.nodup_cons.mpr ⟨hnm, hnd⟩
    · rw [hgrow]
      intro c hc
      rcases List.mem_cons.mp hc with h1 | h2
      · rw [h1]
        exact hins
      · exact hin c h2
  · rw [chainOK_def]
    constructor
    · rw [hmove]
      exact List.Nodup.sublist (List.dropLast_sublist _) (List.nodup_cons.mpr ⟨hnm, hnd⟩)
    · rw [hmove]
      intro c hc
      have hc2 := (List.dropLast_sublist _).subset hc
      rcases List.mem_cons.mp hc2 with h1 | h2
      · rw [h1]
        exact hins
      · exact hin c h2

theorem set_pending_snake (d : Vec) (s : GameState) : (set_pending d s).snake = s.snake := by
  unfold set_pending
  split
  · split
    · rfl
    · rfl
  · rfl

theorem runActs_chainOK (cfg : Config) (acts : List Act) :
    ∀ s : GameState, ChainOK cfg s → ChainOK cfg (runActs cfg s acts) := by
  induction acts with
  | nil => exact fun s h => h
  | cons a t ih =>
    intro s h
    cases a with
    | tickA c => exact ih _ (tick_chainOK c cfg s h)
    | setDirA d => exact ih _ (chainOK_of_snake_eq (set_pending_snake d s) h)

theorem reset_snake_default (choice : List Vec → Vec) :
    (reset_game choice defaultCfg).snake
      = [((15 : Int), (10 : Int)), (14, 10), (13, 10)] := rfl

theorem reset_chainOK_default (choice : List Vec → Vec) :
    ChainOK defaultCfg (reset_game choice defaultCfg) := by
  rw [chainOK_def, reset_snake_default]
  decide

/-- C4: every state reachable from `reset_game` on the default configuration by
ticks and direction keys has a chain of pairwise distinct cells, all inside the
grid. -/
theorem C4_reachable_chain_invariant (choice0 : List Vec → Vec) (acts : List Act) :
    (runActs defaultCfg (reset_game choice0 defaultCfg) acts).snake.Nodup ∧
    ∀ c ∈ (runActs defaultCfg (reset_game choice0 defaultCfg) acts).snake,
      inside c defaultCfg = true := by
  have h := runActs_chainOK defaultCfg acts (reset_game choice0 defaultCfg)
      (reset_chainOK_default choice0)
  exact chainOK_def.mp h

theorem tick_len_score (choice : List Vec → Vec) (cfg : Config) (s : GameState)
    (h : s.snake.length = s.score + 3) :
    (tick choice cfg s).snake.length = (tick choice cfg s).score + 3 := by
  by_cases halive : s.alive = true
  · by_cases hcol : ¬ inside (new_head_of s) cfg = true ∨ new_head_of s ∈ s.snake
    · unfold tick
      rw [halive]
      unfold new_head_of at hcol
      simp only [if_true]
      rw [if_pos hcol]
      exact h
    · by_cases hfood : new_head_of s = s.food
      · unfold tick
        rw [halive]
        unfold new_head_of at hcol hfood
        simp only [if_true]
        rw [if_neg hcol, if_pos hfood]
        show (add (s.snake.headD (0, 0)) s.pending_dir :: s.snake).length = s.score + 1 + 3
        rw [List.length_cons, h]
      · unfold tick
        rw [halive]
        unfold new_head_of at hcol hfood
        simp only [if_true]
        rw [if_neg hcol, if_neg hfood]
        show (add (s.snake.headD (0, 0)) s.pending_dir :: s.snake).dropLast.length
          = s.score + 3
        rw [List.length_dropLast, List.length_cons, h]
        omega
  · unfold tick
    rw [Bool.not_eq_true] at halive
    rw [halive]
    exact h

theorem set_pending_score (d : Vec) (s : GameState) : (set_pending d s).score = s.score := by
  unfold set_pending
  split
  · split
    · rfl
    · rfl
  · rfl

theorem runActs_len_score (cfg : Config) (acts : List Act) :
    ∀ s : GameState, s.snake.length = s.score + 3 →
      (runActs cfg s acts).snake.length = (runActs cfg s acts).score + 3 := by
  induction acts with
  | nil => exact fun s h => h
  | cons a t ih =>
    intro s h
    cases a with
    | tickA c => exact ih _ (tick_len_score c cfg s h)
    | setDirA d =>
      apply ih
      show (set_pending d s).snake.length = (set_pending d s).score + 3
      rw [set_pending_snake d s, set_pending_score d s]
      exact h

/-- C10: in every state reachable from `reset_game` without an intervening
reset, the chain length equals the score plus the initial length 3, hence the
chain always has at least 3 cells. -/
theorem C10_score_tracks_length (choice0 : List Vec → Vec) (cfg : Config) (acts : List Act) :
    (runActs cfg (reset_game choice0 cfg) acts).snake.length
      = (runActs cfg (reset_game choice0 cfg) acts).score + 3 ∧
    3 ≤ (runActs cfg (reset_game choice0 cfg) acts).snake.length := by
  have h := runActs_len_score cfg acts (reset_game choice0 cfg) rfl
  exact ⟨h, by omega⟩

/-- C7: on any grid at least 4 wide and 1 tall (the game's is 30 by 20), reset
produces the 3-cell chain headed at the grid center trailing in the negative-x
direction, both directions rightward, score 0, alive, and a food cell sampled
over the chain, hence off the chain, for any valid random draw. -/
theorem C7_reset_state (choice : List Vec → Vec) (cfg : Config)
    (hc : ∀ l : List Vec, l ≠ [] → choice l ∈ l)
    (hw : 4 ≤ cfg.grid_width) (hh : 1 ≤ cfg.grid_height) :
    (reset_game choice cfg).snake =
      [(((cfg.grid_width / 2 : Nat) : Int), ((cfg.grid_height / 2 : Nat) : Int)),
        (((cfg.grid_width / 2 : Nat) : Int) - 1, ((cfg.grid_height / 2 : Nat) : Int)),
        (((cfg.grid_width / 2 : Nat) : Int) - 2, ((cfg.grid_height / 2 : Nat) : Int))] ∧
    (reset_game choice cfg).snake.length = 3 ∧
    (reset_game choice cfg).direction = (1, 0) ∧
    (reset_game choice cfg).pending_dir = (1, 0) ∧
    (reset_game choice cfg).score = 0 ∧
    (reset_game choice cfg).alive = true ∧
    (reset_game choice cfg).food
      = random_empty_cell choice (reset_game choice cfg).snake cfg ∧
    (reset_game choice cfg).food ∉ (reset_game choice cfg).snake := by
  have hsnake : (reset_game choice cfg).snake =
      [(((cfg.grid_width / 2 : Nat) : Int), ((cfg.grid_height / 2 : Nat) : Int)),
        (((cfg.grid_width / 2 : Nat) : Int) - 1, ((cfg.grid_height / 2 : Nat) : Int)),
        (((cfg.grid_width / 2 : Nat) : Int) - 2, ((cfg.grid_height / 2 : Nat) : Int))] := rfl
  have hmem : cellAt (cfg.grid_width / 2 + 1) (cfg.grid_height / 2)
      ∈ empties (reset_game choice cfg).snake cfg := by
    rw [mem_empties]
    constructor
    · unfold cellAt inside
      simp only [Bool.and_eq_true, decide_eq_true_eq]
      refine ⟨⟨⟨?_, ?_⟩, ?_⟩, ?_⟩ <;> omega
    · intro hin
      rw [hsnake] at hin
      unfold cellAt at hin
      simp only [List.mem_cons, List.not_mem_nil, or_false, Prod.mk.injEq] at hin
      rcases hin with ⟨h1, h2⟩ | ⟨h1, h2⟩ | ⟨h1, h2⟩ <;> omega
  have hnonempty : empties (reset_game choice cfg).snake cfg ≠ [] := by
    intro h0
    rw [h0] at hmem
    exact List.not_mem_nil _ hmem
  have hfood : (reset_game choice cfg).food
      ∈ empties (reset_game choice cfg).snake cfg := by
    show random_empty_cell choice (reset_game choice cfg).snake cfg
      ∈ empties (reset_game choice cfg).snake cfg
    unfold random_empty_cell
    rw [if_neg hnonempty]
    exact hc _ hnonempty
  exact ⟨hsnake, rfl, rfl, rfl, rfl, rfl, rfl, not_mem_of_mem_empties hfood⟩

/-- C7 witness: reset on the default 30 by 20 configuration with the first-cell
draw. -/
theorem C7_witness :
    (∀ l : List Vec, l ≠ [] → headChoice l ∈ l) ∧
    4 ≤ defaultCfg.grid_width ∧ 1 ≤ defaultCfg.grid_height ∧
    ((reset_game headChoice defaultCfg).snake =
      [(((defaultCfg.grid_width / 2 : Nat) : Int), ((defaultCfg.grid_height / 2 : Nat) : Int)),
        (((defaultCfg.grid_width / 2 : Nat) : Int) - 1,
          ((defaultCfg.grid_height / 2 : Nat) : Int)),
        (((defaultCfg.grid_width / 2 : Nat) : Int) - 2,
          ((defaultCfg.grid_height / 2 : Nat) : Int))] ∧
    (reset_game headChoice defaultCfg).snake.length = 3 ∧
    (reset_game headChoice defaultCfg).direction = (1, 0) ∧
    (reset_game headChoice defaultCfg).pending_dir = (1, 0) ∧
    (reset_game headChoice defaultCfg).score = 0 ∧
    (reset_game headChoice defaultCfg).alive = true ∧
    (reset_game headChoice defaultCfg).food
      = random_empty_cell headChoice (reset_game headChoice defaultCfg).snake defaultCfg ∧
    (reset_game headChoice defaultCfg).food ∉ (reset_game headChoice defaultCfg).snake) :=
  ⟨headChoice_ok, by decide, by decide,
    C7_reset_state headChoice defaultCfg headChoice_ok (by decide) (by decide)⟩
